import Mathlib

/-!
Verification of the configuration-search core of the model_analyzer repository.

The development shallowly embeds the Python code of
`model_analyzer/config/generate/base_model_config_generator.py` and
`model_analyzer/config/generate/model_run_config_generator.py`:
Python dicts become association structures, floats become rationals,
generators become explicit recursive drivers, and logging / Triton-client
side effects become explicit event traces.
-/

set_option autoImplicit false

/-! ## Python values and dicts

A configuration value is Python `None`, a scalar (int or string), or a
nested dict. Dicts are ordered association structures with unique keys,
mirroring Python dict semantics for `get`, item assignment, and `items()`
order.
-/

mutual

inductive PyVal where
  | vnone : PyVal
  | vint : Int → PyVal
  | vstr : String → PyVal
  | vdict : PyDict → PyVal

inductive PyDict where
  | nil : PyDict
  | cons : String → PyVal → PyDict → PyDict

end

/-- Python `dict_in.get(key, None)`: first binding of `key`, if any. -/
def dictGet : PyDict → String → Option PyVal
  | PyDict.nil, _ => none
  | PyDict.cons k v rest, key => if k = key then some v else dictGet rest key

/-- Python `dict_in[key] = value`: replace the binding in place if the key
exists (keeping its position), otherwise append a new binding. -/
def dictSet : PyDict → String → PyVal → PyDict
  | PyDict.nil, key, value => PyDict.cons key value PyDict.nil
  | PyDict.cons k v rest, key, value =>
    if k = key then PyDict.cons k value rest
    else PyDict.cons k v (dictSet rest key value)

/-- The keys of a dict, in order. -/
def PyDict.keys : PyDict → List String
  | PyDict.nil => []
  | PyDict.cons k _ rest => k :: PyDict.keys rest

mutual

/-- Embedding of `BaseModelConfigGenerator._apply_value_to_dict`:
if the existing value at `key` and the new `value` are both dicts,
recursively overwrite only the subkeys provided in `value`;
otherwise assign `value` directly at `key`. -/
def apply_value_to_dict (key : String) (value : PyVal) (dict_in : PyDict) : PyDict :=
  match dictGet dict_in key, value with
  | some (PyVal.vdict inner), PyVal.vdict pairs =>
    dictSet dict_in key (PyVal.vdict (apply_pairs pairs inner))
  | _, _ => dictSet dict_in key value

/-- The `for subkey, subvalue in value.items()` loop of
`_apply_value_to_dict`, applied sequentially to the nested dict. -/
def apply_pairs (pairs : PyDict) (d : PyDict) : PyDict :=
  match pairs with
  | PyDict.nil => d
  | PyDict.cons subkey subvalue rest => apply_pairs rest (apply_value_to_dict subkey subvalue d)

end

example :
    apply_value_to_dict "a" (PyVal.vdict (PyDict.cons "b" (PyVal.vint 1) PyDict.nil))
      (PyDict.cons "a"
        (PyVal.vdict (PyDict.cons "b" (PyVal.vint 0) (PyDict.cons "c" (PyVal.vint 2) PyDict.nil)))
        PyDict.nil) =
    PyDict.cons "a"
      (PyVal.vdict (PyDict.cons "b" (PyVal.vint 1) (PyDict.cons "c" (PyVal.vint 2) PyDict.nil)))
      PyDict.nil := by rfl

example :
    apply_value_to_dict "a" (PyVal.vint 5)
      (PyDict.cons "a" (PyVal.vdict (PyDict.cons "b" (PyVal.vint 0) PyDict.nil)) PyDict.nil) =
    PyDict.cons "a" (PyVal.vint 5) PyDict.nil := by rfl

/-! ## Measurements and throughput

An absent measurement in a results list is Python `None`, embedded as
`Option.none` in `List (Option RunConfigMeasurement)`. Metric values
(Python floats) are embedded as rationals. -/

/-- Modelled from the spec: `RunConfigMeasurement` is not under src/; per
the spec's MeasurementSource contract, `getMetric(tag) -> number | absent`,
so the metric getter is Option-valued: a present measurement may still
carry no numeric value for a tag (Python `None`). -/
structure RunConfigMeasurement where
  get_non_gpu_metric_value : String → Option ℚ

/-- Python's builtin `max` over float-or-`None` values: it folds with `>`,
and a comparison involving `None` raises TypeError (`Except.error`). A
singleton needs no comparison, so `max([None])` is `None`; `max` of an
empty list also raises, but the only caller guards emptiness first. -/
def py_max_go (acc : Option ℚ) : List (Option ℚ) → Except Unit (Option ℚ)
  | [] => Except.ok acc
  | x :: xs =>
    match x, acc with
    | some xv, some accv =>
      if xv > accv then py_max_go (some xv) xs else py_max_go (some accv) xs
    | _, _ => Except.error ()

/-- Python `max(throughputs)` for a list of float-or-`None`. -/
def py_max : List (Option ℚ) → Except Unit (Option ℚ)
  | [] => Except.error ()
  | x :: xs => py_max_go x xs

/-- Embedding of `BaseModelConfigGenerator._get_last_results_max_throughput`:
collect `perf_throughput` from every non-`None` list entry (only the entry
is filtered, not the metric value it carries); `None` if the collection is
empty, otherwise Python `max` of it — whose TypeError on a `None`-containing
collection of two or more values propagates. -/
def get_last_results_max_throughput (last_results : List (Option RunConfigMeasurement)) :
    Except Unit (Option ℚ) :=
  let throughputs :=
    (last_results.filterMap id).map (fun m => m.get_non_gpu_metric_value "perf_throughput")
  if throughputs.isEmpty then Except.ok none else py_max throughputs

/-- Embedding of `BaseModelConfigGenerator._last_results_erroneous`:
true iff the max throughput of the last results is `None`; an exception
from the max computation propagates. -/
def last_results_erroneous (last_results : List (Option RunConfigMeasurement)) :
    Except Unit Bool :=
  match get_last_results_max_throughput last_results with
  | Except.error e => Except.error e
  | Except.ok last_max_throughput => Except.ok last_max_throughput.isNone

/-- Embedding of `BaseModelConfigGenerator._last_results_increased_throughput`:
true when fewer than two per-step bests are recorded, otherwise true iff the
latest recorded best strictly exceeds every previously recorded best. -/
def last_results_increased_throughput (curr_max_batch_size_throughputs : List ℚ) : Bool :=
  if curr_max_batch_size_throughputs.length < 2 then true
  else
    match curr_max_batch_size_throughputs.getLast? with
    | none => true
    | some lastest_throughput =>
      curr_max_batch_size_throughputs.dropLast.all
        (fun prev_throughput => lastest_throughput > prev_throughput)

example : last_results_increased_throughput [10, 20, 30] = true := by decide
example : last_results_increased_throughput [30, 20] = false := by decide
example : last_results_erroneous [none, none] = Except.ok true := by rfl

/-! ## The max-batch-size plateau warning latch

`_print_max_batch_size_plateau_warning` logs through `logger.info` only when
the instance latch `_max_batch_size_warning_printed` is unset, then sets it;
`_reset_max_batch_size` clears the latch and the recorded throughputs.
Logging is modelled as the Boolean first component of the result. -/

structure MBSState where
  max_batch_size_warning_printed : Bool
  curr_max_batch_size_throughputs : List ℚ

/-- Embedding of `BaseModelConfigGenerator._print_max_batch_size_plateau_warning`:
the first component records whether `logger.info` emitted the plateau notice
(the Python method itself always returns `True`). -/
def print_max_batch_size_plateau_warning (s : MBSState) : Bool × MBSState :=
  if !s.max_batch_size_warning_printed then
    (true, { s with max_batch_size_warning_printed := true })
  else (false, s)

/-- Embedding of `BaseModelConfigGenerator._reset_max_batch_size`. -/
def reset_max_batch_size (_s : MBSState) : MBSState :=
  { max_batch_size_warning_printed := false, curr_max_batch_size_throughputs := [] }

/-- Events that touch the latch: a plateau detection
(`_print_max_batch_size_plateau_warning`) or a `_reset_max_batch_size`. -/
inductive MBSOp where
  | warn : MBSOp
  | reset : MBSOp
deriving DecidableEq

/-- Number of plateau notices actually logged along a sequence of events. -/
def mbs_log_count (s : MBSState) : List MBSOp → ℕ
  | [] => 0
  | MBSOp.warn :: rest =>
    let r := print_max_batch_size_plateau_warning s
    (if r.1 then 1 else 0) + mbs_log_count r.2 rest
  | MBSOp.reset :: rest => mbs_log_count (reset_max_batch_size s) rest

/-- The state of a freshly constructed generator. -/
def mbs_initial : MBSState :=
  { max_batch_size_warning_printed := false, curr_max_batch_size_throughputs := [] }

example : mbs_log_count mbs_initial [MBSOp.warn, MBSOp.warn, MBSOp.warn] = 1 := by rfl
example : mbs_log_count mbs_initial [MBSOp.warn, MBSOp.reset, MBSOp.warn] = 2 := by rfl

/-! ## The base generator loop

`BaseModelConfigGenerator.get_configs` is a `while` loop over abstract
strategy hooks `_done_walking`, `_get_next_model_config` and `_step`
(abstract methods of the base class). The strategy is embedded as a state
type `S` with three functions, the loop as fuel-bounded recursion (the
Python loop has no intrinsic bound), and `_generator_started` as an
explicit Boolean threaded through the loop. -/

/-- Embedding of `BaseModelConfigGenerator._is_done`. -/
def is_done (generator_started default_only done_walking : Bool) : Bool :=
  generator_started && (default_only || done_walking)

/-- Embedding of `BaseModelConfigGenerator.get_configs`: while not done,
mark the generator started, get the next model config, yield it, step. -/
def get_configs_base {S C : Type} (fuel : ℕ) (default_only : Bool)
    (done_walking : S → Bool) (get_next_model_config : S → C) (step : S → S)
    (generator_started : Bool) (s : S) : List C :=
  match fuel with
  | 0 => []
  | Nat.succ fuel' =>
    if is_done generator_started default_only (done_walking s) then []
    else
      get_next_model_config s ::
        get_configs_base fuel' default_only done_walking get_next_model_config step true (step s)

/-! ## Direct-mode model config construction -/

/-- Python `value is not None`. -/
def py_is_not_none : PyVal → Bool
  | PyVal.vnone => false
  | _ => true

/-- The `for key, value in param_combo.items()` loop of
`BaseModelConfigGenerator.make_model_config`: apply every non-None value
onto the config dict, in item order. -/
def apply_param_combo : PyDict → PyDict → PyDict
  | PyDict.nil, d => d
  | PyDict.cons key value rest, d =>
    apply_param_combo rest (if py_is_not_none value then apply_value_to_dict key value d else d)

/-- Embedding of `BaseModelConfigGenerator.make_model_config`: the base
config dict loaded from the model repository and the variant name assigned
by the name manager are external inputs; the dict gets `name` assigned,
then — if the param combo is not None — each non-None combo entry applied;
`ModelConfig.create_from_dictionary` plus `set_cpu_only` become the
returned pair. -/
def make_model_config (param_combo : Option PyDict) (variant_name : String)
    (model_config_dict : PyDict) (cpu_only : Bool) : PyDict × Bool :=
  let named := dictSet model_config_dict "name" (PyVal.vstr variant_name)
  let applied :=
    match param_combo with
    | none => named
    | some combo => apply_param_combo combo named
  (applied, cpu_only)

/-- Modelled from the spec: the default-only strategy's
`_get_next_model_config` hook lives in subclasses not under src/; per the
spec it requests the unmodified base (the empty/None parameter
combination), here `make_model_config` with no combo. -/
def default_only_next_model_config (variant_name : String) (base_dict : PyDict)
    (cpu_only : Bool) : PyDict × Bool :=
  make_model_config none variant_name base_dict cpu_only

/-! ## Early-exit enablement

`ModelRunConfigGenerator._determine_early_exit_enables` reads the global
flag, the model's explicitly specified concurrency values (a Python list
whose truthiness is non-emptiness), and the model-config parameters dict
(likewise truthy iff non-empty). -/

/-- Embedding of `ModelRunConfigGenerator._determine_early_exit_enables`:
returns the pair (perf-analyzer-generator enable, model-config-generator
enable). -/
def determine_early_exit_enables (early_exit_enable : Bool)
    (concurrency : List ℕ) (model_config_parameters : PyDict) : Bool × Bool :=
  let concurrency_specified : Bool := !concurrency.isEmpty
  let config_parameters_exist : Bool := !(model_config_parameters.keys.isEmpty)
  (early_exit_enable || !concurrency_specified,
   early_exit_enable || !config_parameters_exist)

/-! ## Remote-mode model config creation

`_make_remote_model_config` drives the Triton client; its calls are
embedded as an ordered trace of actions. The configuration the server
produces for a model name is abstracted as a function `server_config`,
and `ModelConfig.set_cpu_only` as the Boolean field of the result. -/

inductive TritonClientAction where
  | load_model : String → TritonClientAction
  | get_model_config : String → ℕ → TritonClientAction
  | unload_model : String → TritonClientAction
deriving DecidableEq

structure RemoteModelConfig (D : Type) where
  config_dict : D
  cpu_only : Bool
deriving DecidableEq

/-- Embedding of `BaseModelConfigGenerator._make_remote_model_config`:
unless reloading is disabled, ask the client to load the base model; query
the server-produced config via `ModelConfig.create_from_triton_api` with the
configured retry bound; tag it with the model's cpu-only attribute; unless
reloading is disabled, ask the client to unload. Returns the client-action
trace in program order together with the resulting config. -/
def make_remote_model_config {D : Type} (reload_model_disable : Bool)
    (base_model_name : String) (num_retries : ℕ) (cpu_only : Bool)
    (server_config : String → D) : List TritonClientAction × RemoteModelConfig D :=
  let load_actions :=
    if reload_model_disable then [] else [TritonClientAction.load_model base_model_name]
  let query_actions := [TritonClientAction.get_model_config base_model_name num_retries]
  let model_config : RemoteModelConfig D :=
    { config_dict := server_config base_model_name, cpu_only := cpu_only }
  let unload_actions :=
    if reload_model_disable then [] else [TritonClientAction.unload_model base_model_name]
  (load_actions ++ query_actions ++ unload_actions, model_config)

/-- Modelled from the spec: the remote-mode generator subclass is not under
src/; per the spec, in remote mode the generator yields exactly one variant
(the server-produced config) and ignores the parameter combination. -/
def remote_mode_get_configs {D : Type} (combination : PyDict) (reload_model_disable : Bool)
    (base_model_name : String) (num_retries : ℕ) (cpu_only : Bool)
    (server_config : String → D) : List (RemoteModelConfig D) :=
  let _ := combination
  [(make_remote_model_config reload_model_disable base_model_name num_retries cpu_only
      server_config).2]

/-! ## The orchestrator (`ModelRunConfigGenerator`)

`get_configs` pulls server-config variants from the model-config generator;
for each it builds a fresh `PerfAnalyzerConfigGenerator`, drains it (one
trial per load config, with the driver reporting measurements through
`set_last_results` after each yielded trial, per the turn-based protocol),
then forwards the buffered measurements to the model-config generator via
`_set_last_results_model_config_generator`.

The two generators are embedded by their yielded sequences: a list of
server variants `V`, a per-variant list of load configs `L` (the fresh
inner generator), and a per-trial report function giving the measurement
list the driver passes back. The calls the orchestrator makes to
`pacg.set_last_results` and `mcg.set_last_results` are recorded as lists of
argument lists, in call order. -/

structure OrchestratorState (M : Type) where
  curr_mc_measurements : List (Option M)
  pacg_calls : List (List (Option M))
  mcg_calls : List (List (Option M))

/-- Embedding of `ModelRunConfigGenerator.set_last_results`: forward the
measurement list to the current perf-analyzer config generator and extend
the per-server-variant buffer with its elements. -/
def orch_set_last_results {M : Type} (st : OrchestratorState M)
    (measurements : List (Option M)) : OrchestratorState M :=
  { st with
    pacg_calls := st.pacg_calls ++ [measurements]
    curr_mc_measurements := st.curr_mc_measurements ++ measurements }

/-- Embedding of
`ModelRunConfigGenerator._set_last_results_model_config_generator`: pass the
buffered measurements to the model-config generator and empty the buffer. -/
def set_last_results_model_config_generator {M : Type} (st : OrchestratorState M) :
    OrchestratorState M :=
  { st with
    mcg_calls := st.mcg_calls ++ [st.curr_mc_measurements]
    curr_mc_measurements := [] }

/-- The inner loop of `ModelRunConfigGenerator.get_configs` for one server
variant `v`: yield one trial per load config, the driver reporting
`reports v l` through `set_last_results` after each trial. -/
def drain_load_sweep {V L M : Type} (v : V) (loads : List L)
    (reports : V → L → List (Option M)) (st : OrchestratorState M) :
    List (V × L) × OrchestratorState M :=
  match loads with
  | [] => ([], st)
  | l :: rest =>
    let st1 := orch_set_last_results st (reports v l)
    let (trials, st2) := drain_load_sweep v rest reports st1
    ((v, l) :: trials, st2)

/-- Embedding of `ModelRunConfigGenerator.get_configs`: for each server
variant, drain a fresh inner load sweep, then forward the buffered
measurements to the model-config generator. -/
def orch_get_configs {V L M : Type} (variants : List V) (loads : V → List L)
    (reports : V → L → List (Option M)) (st : OrchestratorState M) :
    List (V × L) × OrchestratorState M :=
  match variants with
  | [] => ([], st)
  | v :: rest =>
    let (trials1, st1) := drain_load_sweep v (loads v) reports st
    let st2 := set_last_results_model_config_generator st1
    let (trials2, st3) := orch_get_configs rest loads reports st2
    (trials1 ++ trials2, st3)

/-- The orchestrator's state at construction time. -/
def orch_initial {M : Type} : OrchestratorState M :=
  { curr_mc_measurements := [], pacg_calls := [], mcg_calls := [] }

/-- Python `type(value) is dict`. -/
def type_is_dict : PyVal → Bool
  | PyVal.vdict _ => true
  | _ => false

/-- Python `type(dict_in.get(key, None)) is dict` applied to the `get`
result (`type(None) is dict` is false). -/
def opt_type_is_dict : Option PyVal → Bool
  | some (PyVal.vdict _) => true
  | _ => false

/-! ## Lemmas about dict operations -/

theorem dictGet_dictSet_self : ∀ (d : PyDict) (key : String) (value : PyVal),
    dictGet (dictSet d key value) key = some value
  | PyDict.nil, key, value => by simp [dictSet, dictGet]
  | PyDict.cons k v rest, key, value => by
    by_cases hk : k = key
    · simp [dictSet, dictGet, hk]
    · simp [dictSet, dictGet, hk, dictGet_dictSet_self rest key value]

theorem dictGet_dictSet_ne : ∀ (d : PyDict) (key : String) (value : PyVal) (k' : String),
    k' ≠ key → dictGet (dictSet d key value) k' = dictGet d k'
  | PyDict.nil, key, value, k', h => by
    simp [dictSet, dictGet, Ne.symm h]
  | PyDict.cons k v rest, key, value, k', h => by
    by_cases hk : k = key
    · subst hk
      simp [dictSet, dictGet, Ne.symm h]
    · by_cases hk' : k = k'
      · subst hk'
        simp [dictSet, dictGet, hk, h]
      · simp [dictSet, dictGet, hk, hk', dictGet_dictSet_ne rest key value k' h]

/-- Both branches of `_apply_value_to_dict` assign at `key`. -/
theorem apply_value_to_dict_eq_dictSet (key : String) (value : PyVal) (d : PyDict) :
    ∃ w, apply_value_to_dict key value d = dictSet d key w := by
  unfold apply_value_to_dict
  split
  · exact ⟨_, rfl⟩
  · exact ⟨_, rfl⟩

/-- `_apply_value_to_dict` leaves every other top-level key untouched. -/
theorem apply_value_to_dict_frame (key : String) (value : PyVal) (d : PyDict)
    (k' : String) (h : k' ≠ key) :
    dictGet (apply_value_to_dict key value d) k' = dictGet d k' := by
  obtain ⟨w, hw⟩ := apply_value_to_dict_eq_dictSet key value d
  rw [hw, dictGet_dictSet_ne d key w k' h]

/-- The `items()` loop leaves every key not named in `pairs` untouched. -/
theorem apply_pairs_frame : ∀ (pairs d : PyDict) (sk : String),
    sk ∉ pairs.keys → dictGet (apply_pairs pairs d) sk = dictGet d sk
  | PyDict.nil, d, sk, _ => by
    simp [apply_pairs]
  | PyDict.cons k v rest, d, sk, h => by
    have hk : sk ≠ k := by
      intro he
      exact h (by simp [PyDict.keys, he])
    have hrest : sk ∉ rest.keys := by
      intro he
      exact h (by simp [PyDict.keys, he])
    rw [apply_pairs, apply_pairs_frame rest _ sk hrest, apply_value_to_dict_frame k v d sk hk]

/-- In the merge branch, the value stored at `key` is the recursively
merged inner dict. -/
theorem apply_value_to_dict_merge (key : String) (value : PyVal) (d : PyDict)
    (inner pairs : PyDict) (hget : dictGet d key = some (PyVal.vdict inner))
    (hval : value = PyVal.vdict pairs) :
    apply_value_to_dict key value d = dictSet d key (PyVal.vdict (apply_pairs pairs inner)) := by
  subst hval
  unfold apply_value_to_dict
  rw [hget]

/-- In the non-merge branch, the value is assigned directly. -/
theorem apply_value_to_dict_assign (key : String) (value : PyVal) (d : PyDict)
    (h : (opt_type_is_dict (dictGet d key) && type_is_dict value) = false) :
    apply_value_to_dict key value d = dictSet d key value := by
  unfold apply_value_to_dict
  split
  · rename_i inner pairs hmatch
    rw [hmatch] at h
    simp [opt_type_is_dict, type_is_dict] at h
  · rfl

/-- C3: `_apply_value_to_dict` merges recursively when both the existing
value at the key and the new value are dicts (overwriting only the provided
subkeys, preserving siblings), and otherwise assigns the new value directly
at the key; witnessed on the spec's two concrete examples. -/
theorem c3_apply_value_to_dict_semantics :
    (∀ (key : String) (value : PyVal) (d : PyDict) (inner pairs : PyDict),
      dictGet d key = some (PyVal.vdict inner) → value = PyVal.vdict pairs →
      apply_value_to_dict key value d = dictSet d key (PyVal.vdict (apply_pairs pairs inner)) ∧
      dictGet (apply_value_to_dict key value d) key =
        some (PyVal.vdict (apply_pairs pairs inner)) ∧
      ∀ sk, sk ∉ pairs.keys → dictGet (apply_pairs pairs inner) sk = dictGet inner sk) ∧
    (∀ (key : String) (value : PyVal) (d : PyDict),
      (opt_type_is_dict (dictGet d key) && type_is_dict value) = false →
      apply_value_to_dict key value d = dictSet d key value) ∧
    apply_value_to_dict "a" (PyVal.vdict (PyDict.cons "b" (PyVal.vint 1) PyDict.nil))
      (PyDict.cons "a"
        (PyVal.vdict (PyDict.cons "b" (PyVal.vint 0) (PyDict.cons "c" (PyVal.vint 2) PyDict.nil)))
        PyDict.nil) =
      PyDict.cons "a"
        (PyVal.vdict (PyDict.cons "b" (PyVal.vint 1) (PyDict.cons "c" (PyVal.vint 2) PyDict.nil)))
        PyDict.nil ∧
    apply_value_to_dict "a" (PyVal.vint 5)
      (PyDict.cons "a" (PyVal.vdict (PyDict.cons "b" (PyVal.vint 0) PyDict.nil)) PyDict.nil) =
      PyDict.cons "a" (PyVal.vint 5) PyDict.nil := by
  refine ⟨?_, ?_, by rfl, by rfl⟩
  · intro key value d inner pairs hget hval
    have hmerge := apply_value_to_dict_merge key value d inner pairs hget hval
    exact ⟨hmerge, by rw [hmerge, dictGet_dictSet_self], fun sk hsk => apply_pairs_frame pairs inner sk hsk⟩
  · exact apply_value_to_dict_assign

/-- Witness for C3 at the spec's deep-merge example. -/
theorem c3_witness :
    dictGet
      (PyDict.cons "a"
        (PyVal.vdict (PyDict.cons "b" (PyVal.vint 0) (PyDict.cons "c" (PyVal.vint 2) PyDict.nil)))
        PyDict.nil) "a" =
      some (PyVal.vdict
        (PyDict.cons "b" (PyVal.vint 0) (PyDict.cons "c" (PyVal.vint 2) PyDict.nil))) ∧
    apply_value_to_dict "a" (PyVal.vdict (PyDict.cons "b" (PyVal.vint 1) PyDict.nil))
      (PyDict.cons "a"
        (PyVal.vdict (PyDict.cons "b" (PyVal.vint 0) (PyDict.cons "c" (PyVal.vint 2) PyDict.nil)))
        PyDict.nil) =
      dictSet
        (PyDict.cons "a"
          (PyVal.vdict (PyDict.cons "b" (PyVal.vint 0) (PyDict.cons "c" (PyVal.vint 2) PyDict.nil)))
          PyDict.nil) "a"
        (PyVal.vdict
          (apply_pairs (PyDict.cons "b" (PyVal.vint 1) PyDict.nil)
            (PyDict.cons "b" (PyVal.vint 0) (PyDict.cons "c" (PyVal.vint 2) PyDict.nil)))) :=
  ⟨by rfl,
    (c3_apply_value_to_dict_semantics.1 "a"
      (PyVal.vdict (PyDict.cons "b" (PyVal.vint 1) PyDict.nil))
      (PyDict.cons "a"
        (PyVal.vdict (PyDict.cons "b" (PyVal.vint 0) (PyDict.cons "c" (PyVal.vint 2) PyDict.nil)))
        PyDict.nil)
      (PyDict.cons "b" (PyVal.vint 0) (PyDict.cons "c" (PyVal.vint 2) PyDict.nil))
      (PyDict.cons "b" (PyVal.vint 1) PyDict.nil) (by rfl) (by rfl)).1⟩

/-- C10: `_apply_value_to_dict` only touches the given key: every other
top-level key keeps its value, and in the recursive-merge loop every subkey
not named in the supplied value keeps its value (the in-place mutation of
the Python dict is embedded as the returned mapping). -/
theorem c10_apply_value_to_dict_frame :
    (∀ (key : String) (value : PyVal) (d : PyDict) (k' : String), k' ≠ key →
      dictGet (apply_value_to_dict key value d) k' = dictGet d k') ∧
    (∀ (pairs d : PyDict) (sk : String), sk ∉ pairs.keys →
      dictGet (apply_pairs pairs d) sk = dictGet d sk) :=
  ⟨apply_value_to_dict_frame, apply_pairs_frame⟩

/-- Witness for C10 at a concrete key pair. -/
theorem c10_witness :
    ("c" : String) ≠ "a" ∧
    dictGet
      (apply_value_to_dict "a" (PyVal.vint 7)
        (PyDict.cons "c" (PyVal.vint 3) PyDict.nil)) "c" =
      dictGet (PyDict.cons "c" (PyVal.vint 3) PyDict.nil) "c" :=
  ⟨by decide,
    c10_apply_value_to_dict_frame.1 "a" (PyVal.vint 7)
      (PyDict.cons "c" (PyVal.vint 3) PyDict.nil) "c" (by decide)⟩

/-- C2: `_last_results_increased_throughput` is true exactly when the
latest recorded per-step best strictly exceeds every previous one
(vacuously with fewer than two records); in particular every prefix of
the increasing sequence 10, 20, 30 passes, while 30, 20 already fails at
the first non-increase as does 30, 20, 10. -/
theorem c2_advance_iff_strict_improvement :
    (∀ l : List ℚ, last_results_increased_throughput l = true ↔
      ∀ x ∈ l.dropLast, ∀ y, l.getLast? = some y → x < y) ∧
    last_results_increased_throughput [10] = true ∧
    last_results_increased_throughput [10, 20] = true ∧
    last_results_increased_throughput [10, 20, 30] = true ∧
    last_results_increased_throughput [30, 20] = false ∧
    last_results_increased_throughput [30, 20, 10] = false := by
  refine ⟨?_, by decide, by decide, by decide, by decide, by decide⟩
  intro l
  rcases l with _ | ⟨a, _ | ⟨b, tl⟩⟩
  · simp [last_results_increased_throughput]
  · simp [last_results_increased_throughput]
  · have hne : (a :: b :: tl) ≠ [] := by simp
    obtain ⟨y, hy⟩ : ∃ z, (a :: b :: tl).getLast? = some z := by
      cases hl : (a :: b :: tl).getLast? with
      | none => exact absurd (List.getLast?_eq_none_iff.mp hl) hne
      | some z => exact ⟨z, rfl⟩
    have hlen : ¬((a :: b :: tl).length < 2) := by
      simp only [List.length_cons]
      omega
    unfold last_results_increased_throughput
    rw [if_neg hlen, hy]
    simp [hy, List.all_eq_true]

/-- Witness for C2 at the history 10, 20. -/
theorem c2_witness : last_results_increased_throughput [10, 20] = true :=
  (c2_advance_iff_strict_improvement.1 [10, 20]).mpr (by
    intro x hx y hy
    simp at hx hy
    rw [hx, ← hy]
    norm_num)

/-- C4 (code bug): under the spec's measurement contract (a present
measurement's metric may be absent), `_get_last_results_max_throughput`
filters only `None` list entries, so an absent `perf_throughput` on a
present measurement reaches Python `max`, which raises TypeError on the
`None`/number comparison instead of ignoring the entry: with one
metric-absent measurement and one at throughput 5 the computation aborts,
where the claim expects best 5 and no abort; `_last_results_erroneous`
aborts on the same input. Dropping the metric-absent measurement gives the
claimed maximum, and a step whose reported list has no present measurement
is erroneous, not an abort. -/
theorem c4_absent_metric_aborts :
    get_last_results_max_throughput
        [some { get_non_gpu_metric_value := fun _ => none },
         some { get_non_gpu_metric_value := fun _ => some 5 }] = Except.error () ∧
    last_results_erroneous
        [some { get_non_gpu_metric_value := fun _ => none },
         some { get_non_gpu_metric_value := fun _ => some 5 }] = Except.error () ∧
    get_last_results_max_throughput
        [none, some { get_non_gpu_metric_value := fun _ => some 5 }] =
      Except.ok (some 5) ∧
    last_results_erroneous [(none : Option RunConfigMeasurement), none] = Except.ok true :=
  ⟨by rfl, by rfl, by rfl, by rfl⟩

/-! ## Plateau-warning latch lemmas -/

/-- Once the latch is set, detections without an intervening reset log
nothing. -/
theorem mbs_log_count_latched : ∀ (ops : List MBSOp) (ts : List ℚ),
    MBSOp.reset ∉ ops →
    mbs_log_count { max_batch_size_warning_printed := true,
                    curr_max_batch_size_throughputs := ts } ops = 0
  | [], _, _ => rfl
  | MBSOp.warn :: rest, ts, h => by
    have hrest : MBSOp.reset ∉ rest := fun hr => h (List.mem_cons_of_mem _ hr)
    simp [mbs_log_count, print_max_batch_size_plateau_warning,
      mbs_log_count_latched rest ts hrest]
  | MBSOp.reset :: rest, ts, h => absurd (List.mem_cons_self _ _) h

/-- A reset splits the log count into independent segments. -/
theorem mbs_log_count_split : ∀ (ops1 : List MBSOp) (s : MBSState) (ops2 : List MBSOp),
    mbs_log_count s (ops1 ++ MBSOp.reset :: ops2) =
      mbs_log_count s ops1 + mbs_log_count mbs_initial ops2
  | [], s, ops2 => by simp [mbs_log_count, reset_max_batch_size, mbs_initial]
  | MBSOp.warn :: rest, s, ops2 => by
    rw [List.cons_append]
    simp only [mbs_log_count]
    rw [mbs_log_count_split rest _ ops2]
    omega
  | MBSOp.reset :: rest, s, ops2 => by
    rw [List.cons_append]
    simp only [mbs_log_count]
    exact mbs_log_count_split rest _ ops2

/-- C5 counterexample: on a single generator instance, detection, reset,
detection logs the plateau notice twice. -/
theorem c5_counterexample :
    mbs_log_count mbs_initial [MBSOp.warn, MBSOp.reset, MBSOp.warn] = 2 := by rfl

/-- C5 (amended): on a fresh generator instance the plateau notice is
logged exactly once per run of plateau detections uninterrupted by
`_reset_max_batch_size`: the first detection logs it and sets the latch and
later detections never re-log, but a reset clears the latch, after which
the next detection logs the notice again (each reset-delimited segment
behaves like a fresh instance). -/
theorem c5_plateau_warning_once_per_reset_segment :
    (∀ ops : List MBSOp, MBSOp.reset ∉ ops → ops ≠ [] →
      mbs_log_count mbs_initial ops = 1) ∧
    (∀ (s : MBSState) (ops1 ops2 : List MBSOp),
      mbs_log_count s (ops1 ++ MBSOp.reset :: ops2) =
        mbs_log_count s ops1 + mbs_log_count mbs_initial ops2) := by
  constructor
  · intro ops hreset hne
    match ops, hreset, hne with
    | MBSOp.warn :: rest, hreset, _ =>
      have hrest : MBSOp.reset ∉ rest := fun hr => hreset (List.mem_cons_of_mem _ hr)
      simp [mbs_log_count, print_max_batch_size_plateau_warning, mbs_initial,
        mbs_log_count_latched rest [] hrest]
    | MBSOp.reset :: rest, hreset, _ => exact absurd (List.mem_cons_self _ _) hreset
  · exact fun s ops1 ops2 => mbs_log_count_split ops1 s ops2

/-- Witness for C5 on two consecutive detections. -/
theorem c5_witness : mbs_log_count mbs_initial [MBSOp.warn, MBSOp.warn] = 1 :=
  c5_plateau_warning_once_per_reset_segment.1 [MBSOp.warn, MBSOp.warn] (by decide) (by decide)

/-- C6: each sweep dimension's early exit is enabled iff the global flag is
set or the caller did not pin that dimension's values (concurrency for the
load sweep, model-config parameters for the server sweep). -/
theorem c6_early_exit_enables :
    ∀ (early_exit_enable : Bool) (concurrency : List ℕ) (model_config_parameters : PyDict),
      ((determine_early_exit_enables early_exit_enable concurrency
          model_config_parameters).1 = true ↔
        early_exit_enable = true ∨ concurrency = []) ∧
      ((determine_early_exit_enables early_exit_enable concurrency
          model_config_parameters).2 = true ↔
        early_exit_enable = true ∨ model_config_parameters = PyDict.nil) := by
  intro g conc params
  rcases params with _ | ⟨k, v, rest⟩ <;>
    simp [determine_early_exit_enables, PyDict.keys, List.isEmpty_iff]

/-- C7: a generator constructed with `default_only` yields exactly one
config and is then done (`_is_done` being started AND (defaultOnly OR
doneWalking), with started set on the first pull), for every strategy and
any loop bound that lets the loop run at all; instantiated with the
spec-modelled default-only hook, the one yielded variant is the unmodified
base: the base config dict with only the variant name assigned, every
other key untouched, the cpu-only attribute propagated. -/
theorem c7_default_only_yields_exactly_one :
    ∀ fuel : ℕ, 1 ≤ fuel →
      (∀ (S C : Type) (done_walking : S → Bool) (get_next_model_config : S → C)
        (step : S → S) (s : S),
        get_configs_base fuel true done_walking get_next_model_config step false s =
          [get_next_model_config s] ∧
        is_done true true (done_walking (step s)) = true) ∧
      (∀ (variant_name : String) (base_dict : PyDict) (cpu_only : Bool)
        (done_walking : Unit → Bool) (step : Unit → Unit),
        get_configs_base fuel true done_walking
            (fun _ => default_only_next_model_config variant_name base_dict cpu_only) step
            false () =
          [default_only_next_model_config variant_name base_dict cpu_only] ∧
        (default_only_next_model_config variant_name base_dict cpu_only).1 =
          dictSet base_dict "name" (PyVal.vstr variant_name) ∧
        (default_only_next_model_config variant_name base_dict cpu_only).2 = cpu_only ∧
        ∀ k, k ≠ "name" →
          dictGet (default_only_next_model_config variant_name base_dict cpu_only).1 k =
            dictGet base_dict k) := by
  intro fuel hfuel
  obtain ⟨n, rfl⟩ : ∃ n, fuel = n + 1 := ⟨fuel - 1, by omega⟩
  have hgen : ∀ (S C : Type) (done_walking : S → Bool) (get_next_model_config : S → C)
      (step : S → S) (s : S),
      get_configs_base (n + 1) true done_walking get_next_model_config step false s =
        [get_next_model_config s] ∧
      is_done true true (done_walking (step s)) = true := by
    intro S C done_walking get_next_model_config step s
    have hdone : ∀ (m : ℕ) (s' : S),
        get_configs_base m true done_walking get_next_model_config step true s' = [] := by
      intro m s'
      cases m <;> simp [get_configs_base, is_done]
    simp [get_configs_base, is_done, hdone]
  refine ⟨hgen, ?_⟩
  intro variant_name base_dict cpu_only done_walking step
  refine ⟨(hgen Unit (PyDict × Bool) done_walking _ step ()).1, rfl, rfl, ?_⟩
  intro k hk
  exact dictGet_dictSet_ne base_dict "name" (PyVal.vstr variant_name) k hk

/-- Witness for C7 with a two-step fuel bound and a trivial strategy over
an empty base dict. -/
theorem c7_witness :
    1 ≤ 2 ∧
    get_configs_base 2 true (fun _ : Unit => false)
        (fun _ => default_only_next_model_config "model_config_default" PyDict.nil false)
        (fun u => u) false () =
      [default_only_next_model_config "model_config_default" PyDict.nil false] :=
  ⟨by decide,
    ((c7_default_only_yields_exactly_one 2 (by decide)).2 "model_config_default" PyDict.nil
        false (fun _ => false) (fun u => u)).1⟩

/-- C8 counterexample: with model reloading disabled, the remote path
queries the server config without requesting load or unload. -/
theorem c8_counterexample :
    (make_remote_model_config true "model" 3 false (fun _ => (0 : ℕ))).1 =
      [TritonClientAction.get_model_config "model" 3] ∧
    (make_remote_model_config true "model" 3 false (fun _ => (0 : ℕ))).1 ≠
      [TritonClientAction.load_model "model",
       TritonClientAction.get_model_config "model" 3,
       TritonClientAction.unload_model "model"] := by
  constructor <;> decide

/-- C8 (amended): in remote mode, unless model reloading is disabled,
producing a model config performs load, then the bounded-retry config
query, then tags the result with the cpu-only attribute, then unload;
with reloading disabled only the query and tagging happen. Either way the
remote path yields exactly one variant and ignores the parameter
combination. -/
theorem c8_remote_mode_protocol :
    ∀ (D : Type) (base_model_name : String) (num_retries : ℕ) (cpu_only : Bool)
      (server_config : String → D),
      (make_remote_model_config false base_model_name num_retries cpu_only server_config).1 =
        [TritonClientAction.load_model base_model_name,
         TritonClientAction.get_model_config base_model_name num_retries,
         TritonClientAction.unload_model base_model_name] ∧
      (make_remote_model_config true base_model_name num_retries cpu_only server_config).1 =
        [TritonClientAction.get_model_config base_model_name num_retries] ∧
      (∀ reload_model_disable,
        (make_remote_model_config reload_model_disable base_model_name num_retries cpu_only
            server_config).2 =
          { config_dict := server_config base_model_name, cpu_only := cpu_only }) ∧
      (∀ (combination1 combination2 : PyDict) (reload_model_disable : Bool),
        remote_mode_get_configs combination1 reload_model_disable base_model_name num_retries
            cpu_only server_config =
          remote_mode_get_configs combination2 reload_model_disable base_model_name num_retries
            cpu_only server_config ∧
        (remote_mode_get_configs combination1 reload_model_disable base_model_name num_retries
            cpu_only server_config).length = 1) :=
  fun _ _ _ _ _ => ⟨rfl, rfl, fun _ => rfl, fun _ _ _ => ⟨rfl, rfl⟩⟩

/-! ## Orchestrator lemmas -/

/-- Draining one variant's inner sweep yields one trial per load config in
order, buffers the concatenated reports, forwards each report to the
perf-analyzer generator, and does not call the model-config generator. -/
theorem drain_load_sweep_spec {V L M : Type} (v : V) (reports : V → L → List (Option M)) :
    ∀ (loads : List L) (st : OrchestratorState M),
      drain_load_sweep v loads reports st =
        (loads.map (fun l => (v, l)),
         { curr_mc_measurements := st.curr_mc_measurements ++ (loads.map (reports v)).flatten,
           pacg_calls := st.pacg_calls ++ loads.map (reports v),
           mcg_calls := st.mcg_calls })
  | [], st => by simp [drain_load_sweep]
  | l :: rest, st => by
    have ih := drain_load_sweep_spec v reports rest (orch_set_last_results st (reports v l))
    simp only [drain_load_sweep, ih]
    simp [orch_set_last_results, List.append_assoc]

/-- The full orchestrator run, from an empty buffer: trials come in nested
product order and the model-config generator receives one call per server
variant, carrying that variant's concatenated reports. -/
theorem orch_get_configs_spec {V L M : Type} (loads : V → List L)
    (reports : V → L → List (Option M)) :
    ∀ (variants : List V) (p m : List (List (Option M))),
      orch_get_configs variants loads reports
        { curr_mc_measurements := [], pacg_calls := p, mcg_calls := m } =
        (variants.flatMap (fun v => (loads v).map (fun l => (v, l))),
         { curr_mc_measurements := [],
           pacg_calls := p ++ variants.flatMap (fun v => (loads v).map (reports v)),
           mcg_calls := m ++ variants.map (fun v => ((loads v).map (reports v)).flatten) })
  | [], p, m => by simp [orch_get_configs]
  | v :: rest, p, m => by
    have hdrain := drain_load_sweep_spec v reports (loads v)
      { curr_mc_measurements := [], pacg_calls := p, mcg_calls := m }
    have ih := orch_get_configs_spec loads reports rest (p ++ (loads v).map (reports v))
      (m ++ [((loads v).map (reports v)).flatten])
    simp only [orch_get_configs, hdrain, set_last_results_model_config_generator,
      List.nil_append]
    simp only [ih]
    simp [List.flatMap_cons, List.append_assoc]

/-- C1: for any server-variant sequence, per-variant load sequences and
per-trial driver reports, the orchestrator yields the trials in nested
order and calls the server-config generator's feedback hook exactly once
per server variant, with the in-order concatenation of that variant's
reported measurement lists. -/
theorem c1_orchestrator_nested_order_and_feedback :
    ∀ (V L M : Type) (variants : List V) (loads : V → List L)
      (reports : V → L → List (Option M)),
      (orch_get_configs variants loads reports orch_initial).1 =
        variants.flatMap (fun v => (loads v).map (fun l => (v, l))) ∧
      (orch_get_configs variants loads reports orch_initial).2.mcg_calls =
        variants.map (fun v => ((loads v).map (reports v)).flatten) ∧
      (orch_get_configs variants loads reports orch_initial).2.mcg_calls.length =
        variants.length := by
  intro V L M variants loads reports
  have h := orch_get_configs_spec loads reports variants [] []
  rw [show (orch_initial : OrchestratorState M) =
    { curr_mc_measurements := [], pacg_calls := [], mcg_calls := [] } from rfl, h]
  simp

/-- C9: each `set_last_results` call forwards the measurement list to the
current perf-analyzer generator and appends its elements to the
per-server-variant buffer; forwarding to the model-config generator passes
the buffer and empties it, so in a full run each feedback call to the
server generator carries exactly its own variant's reports and the buffer
ends empty. -/
theorem c9_set_last_results_buffering :
    ∀ (M : Type) (st : OrchestratorState M) (measurements : List (Option M)),
      (orch_set_last_results st measurements).pacg_calls =
        st.pacg_calls ++ [measurements] ∧
      (orch_set_last_results st measurements).curr_mc_measurements =
        st.curr_mc_measurements ++ measurements ∧
      (orch_set_last_results st measurements).mcg_calls = st.mcg_calls ∧
      (set_last_results_model_config_generator st).mcg_calls =
        st.mcg_calls ++ [st.curr_mc_measurements] ∧
      (set_last_results_model_config_generator st).curr_mc_measurements = [] ∧
      (∀ (V L : Type) (variants : List V) (loads : V → List L)
        (reports : V → L → List (Option M)),
        (orch_get_configs variants loads reports orch_initial).2.mcg_calls =
          variants.map (fun v => ((loads v).map (reports v)).flatten) ∧
        (orch_get_configs variants loads reports orch_initial).2.curr_mc_measurements = []) := by
  intro M st measurements
  refine ⟨rfl, rfl, rfl, rfl, rfl, ?_⟩
  intro V L variants loads reports
  have h := orch_get_configs_spec loads reports variants [] []
  rw [show (orch_initial : OrchestratorState M) =
    { curr_mc_measurements := [], pacg_calls := [], mcg_calls := [] } from rfl, h]
  simp
